import Mathlib

/-!
Shallow embedding of `src/train_utils.py`: batching, the accuracy meter, the
epoch runner and the trainer of a two-head (double-digit MNIST) classifier.

Conventions of the embedding:
* machine floats are modelled as exact rationals `ℚ`; the NumPy scalar `nan`
  (as produced by `np.mean` of an empty array) is modelled by `none` in
  `NpFloat := Option ℚ`;
* tensors are lists; dtype and device are carried as explicit tags;
* the external torch library (the model's forward computation,
  `torch.argmax`, `F.cross_entropy`, autograd) is an abstract environment
  `Torch`, while `torch.optim.SGD` is embedded concretely;
* side effects (gradient clearing, backpropagation, optimizer steps,
  checkpoint saving) are recorded in explicit event traces.
-/

/-- Tensor element dtypes used by `batch_data` (`torch.float32`, `torch.int64`). -/
inductive DType where
  | float32
  | int64
deriving DecidableEq, Repr

/-- One batch as built by `batch_data`: the dict `{'x': ..., 'y': ...}` where
`x` is the float32 input tensor (one entry per sample) and `y` is the int64
tensor `[y_data[0][i:i+batch_size], y_data[1][i:i+batch_size]]` (one list per
row), each tagged with its dtype and the device it was moved to. -/
structure Batch (α : Type) where
  x : List α
  xDtype : DType
  xDevice : String
  y : List (List Int)
  yDtype : DType
  yDevice : String
deriving DecidableEq, Repr

/-- Python `range(start, stop, step)` for nonzero `step`: ascending for a
positive step, descending for a negative one, empty when `step` does not move
from `start` towards `stop`. -/
def pyRange (start stop step : Int) : List Int :=
  if 0 < step then
    (List.range (((stop - start).toNat + step.toNat - 1) / step.toNat)).map
      (fun k : Nat => start + (k : Int) * step)
  else if step < 0 then
    (List.range (((start - stop).toNat + (-step).toNat - 1) / (-step).toNat)).map
      (fun k : Nat => start + (k : Int) * step)
  else []

/-- Python slice `l[i:j]` for `0 ≤ i ≤ j`, the only shape reached in
`batch_data` (its slice starts come from `range(0, N, batch_size)`). -/
def pySlice {α : Type} (l : List α) (i j : Int) : List α :=
  (l.drop i.toNat).take (j.toNat - i.toNat)

/-- `batch_data` from `train_utils.py`: `N = int(len(x_data) / batch_size) * batch_size`
(Python's `int` of a true division truncates toward zero, `Int.tdiv`; a zero
`batch_size` raises `ZeroDivisionError` at that division), then one batch per
`i in range(0, N, batch_size)`, slicing the inputs and the two parallel label
arrays and moving both tensors to the module-level `device` (here `dev`). -/
def batch_data {α : Type} (dev : String) (x_data : List α)
    (y_data : List Int × List Int) (batch_size : Int) :
    Except String (List (Batch α)) :=
  if batch_size = 0 then
    Except.error "ZeroDivisionError"
  else
    let N : Int := Int.tdiv (x_data.length : Int) batch_size * batch_size
    Except.ok ((pyRange 0 N batch_size).map (fun i =>
      { x := pySlice x_data i (i + batch_size)
        xDtype := DType.float32
        xDevice := dev
        y := [pySlice y_data.1 i (i + batch_size), pySlice y_data.2 i (i + batch_size)]
        yDtype := DType.int64
        yDevice := dev }))

/-- A NumPy float scalar: `none` models `nan`. -/
abbrev NpFloat : Type := Option ℚ

/-- `np.mean` over ordinary floats: `nan` on the empty array, the arithmetic
mean otherwise. -/
def np_mean (l : List ℚ) : NpFloat :=
  if l.length = 0 then none else some (l.sum / (l.length : ℚ))

/-- `np.mean` over floats that may themselves be `nan`: `nan` on the empty
array and whenever any entry is `nan` (nan propagates through the mean). -/
def np_mean_npf (l : List NpFloat) : NpFloat :=
  if l.length = 0 then none
  else
    match l.mapM id with
    | none => none
    | some vs => some (vs.sum / (l.length : ℚ))

/-- `compute_accuracy` from `train_utils.py`:
`np.mean(np.equal(tensor2array(predictions), tensor2array(y)))` — the mean of
the elementwise-equality indicators of the two label vectors, taken on host
(cpu, detached) copies.  Elementwise comparison is the behaviour on equally
long vectors, which is the shape reached from `run_epoch`. -/
def compute_accuracy (predictions y : List Int) : NpFloat :=
  np_mean (List.zipWith (fun a b => if a = b then (1 : ℚ) else 0) predictions y)

/-- The torch model's state as seen by this module: its flattened trainable
parameters and its `training` mode flag. -/
structure PyModel where
  params : List ℚ
  training : Bool
deriving DecidableEq, Repr

/-- The external torch library as seen by `run_epoch`: the model's forward
computation `model(x)` (which, being an opaque stateful collaborator, may also
update the model's `training` flag), `torch.argmax(-, dim=1)`,
`F.cross_entropy`, and the autograd oracle `grad` giving the gradient of the
joint objective `0.5 * (loss1 + loss2)` with respect to the parameters at the
given batch and mode flag. -/
structure Torch (α ℓ : Type) where
  forward : List ℚ → Bool → List α → Bool × ℓ × ℓ
  argmax : ℓ → List Int
  cross_entropy : ℓ → List Int → ℚ
  grad : List ℚ → Bool → Batch α → List ℚ

/-- State of `torch.optim.SGD(model.parameters(), lr, momentum, nesterov)`
(weight decay and dampening left at their defaults of 0, as in
`train_model`): the hyperparameters plus the momentum buffer, absent until
the first step. -/
structure SGD where
  lr : ℚ
  momentum : ℚ
  nesterov : Bool
  buf : Option (List ℚ)
deriving DecidableEq, Repr

/-- One `optimizer.step()` of `torch.optim.SGD` on parameters `p` with
gradient `g`: the momentum buffer becomes `g` on the first step and
`momentum * buf + g` afterwards; the applied direction is the buffer, or
`g + momentum * buf` under Nesterov momentum; parameters move by `-lr`
times the direction. -/
def SGD.step (o : SGD) (p g : List ℚ) : List ℚ × SGD :=
  let buf :=
    match o.buf with
    | none => g
    | some b => List.zipWith (fun bi gi => o.momentum * bi + gi) b g
  let d := if o.nesterov then List.zipWith (fun gi bi => gi + o.momentum * bi) g buf else buf
  (List.zipWith (fun pi di => pi - o.lr * di) p d, { o with buf := some buf })

/-- Observable autograd/optimizer side effects of one `run_epoch` call:
`optimizer.zero_grad()`, `joint_loss.backward()` (recording the
backpropagated objective value), `optimizer.step()`. -/
inductive Event where
  | zeroGrad
  | backward (objective : ℚ)
  | step
deriving DecidableEq, Repr

/-- The kind of an `Event`, forgetting the backpropagated value. -/
inductive EventKind where
  | zeroGrad
  | backward
  | step
deriving DecidableEq, Repr

/-- Project an event to its kind. -/
def Event.kind : Event → EventKind
  | Event.zeroGrad => EventKind.zeroGrad
  | Event.backward _ => EventKind.backward
  | Event.step => EventKind.step

/-- Everything the batch loop of `run_epoch` accumulates and mutates: the four
per-batch metric lists (in batch order), the effect trace, and the final
model parameters, mode flag and optimizer state. -/
structure EpochOut where
  losses1 : List ℚ
  losses2 : List ℚ
  accs1 : List NpFloat
  accs2 : List NpFloat
  trace : List Event
  params : List ℚ
  flag : Bool
  opt : SGD
deriving DecidableEq, Repr

/-- The `for batch in tqdm(data)` loop of `run_epoch`.  `is_training` is the
value of `model.training` latched before the loop; `params`, `flag` and `opt`
are the current model parameters, current mode flag and optimizer state.  Per
batch: forward, per-head argmax predictions and accuracies, per-head
cross-entropy losses, and — only when `is_training` — `zero_grad`, backward of
`joint_loss = 0.5 * (loss1 + loss2)` and one optimizer step on the autograd
gradient of that objective. -/
def run_batches {α ℓ : Type} (T : Torch α ℓ) (is_training : Bool) :
    List (Batch α) → List ℚ → Bool → SGD → EpochOut
  | [], params, flag, opt => ⟨[], [], [], [], [], params, flag, opt⟩
  | batch :: rest, params, flag, opt =>
    let x := batch.x
    let y0 := batch.y.getD 0 []
    let y1 := batch.y.getD 1 []
    let fwd := T.forward params flag x
    let predictions_first_label := T.argmax fwd.2.1
    let predictions_second_label := T.argmax fwd.2.2
    let a1 := compute_accuracy predictions_first_label y0
    let a2 := compute_accuracy predictions_second_label y1
    let loss1 := T.cross_entropy fwd.2.1 y0
    let loss2 := T.cross_entropy fwd.2.2 y1
    if is_training then
      let joint_loss := (1 / 2 : ℚ) * (loss1 + loss2)
      let g := T.grad params flag batch
      let su := SGD.step opt params g
      let r := run_batches T is_training rest su.1 fwd.1 su.2
      ⟨loss1 :: r.losses1, loss2 :: r.losses2, a1 :: r.accs1, a2 :: r.accs2,
        Event.zeroGrad :: Event.backward joint_loss :: Event.step :: r.trace,
        r.params, r.flag, r.opt⟩
    else
      let r := run_batches T is_training rest params fwd.1 opt
      ⟨loss1 :: r.losses1, loss2 :: r.losses2, a1 :: r.accs1, a2 :: r.accs2,
        r.trace, r.params, r.flag, r.opt⟩

/-- Return value and final state of one `run_epoch` call. -/
structure EpochResult where
  avg_loss : NpFloat × NpFloat
  avg_accuracy : NpFloat × NpFloat
  out : EpochOut
deriving DecidableEq, Repr

/-- `run_epoch` from `train_utils.py`: latch `is_training = model.training`
once, run the batch loop, and return the epoch-level
`(np.mean losses1, np.mean losses2)` and
`(np.mean accuracies1, np.mean accuracies2)` together with the final mutated
state. -/
def run_epoch {α ℓ : Type} (T : Torch α ℓ) (data : List (Batch α))
    (model : PyModel) (opt : SGD) : EpochResult :=
  let is_training := model.training
  let r := run_batches T is_training data model.params model.training opt
  { avg_loss := (np_mean r.losses1, np_mean r.losses2)
    avg_accuracy := (np_mean_npf r.accs1, np_mean_npf r.accs2)
    out := r }

/-- Observable top-level actions of `train_model`, in program order: one
training pass, one validation pass, or one `torch.save(model, path)` call
recording the path written and the full model state written there. -/
inductive TrainerEv where
  | trainPass
  | evalPass
  | save (path : String) (content : PyModel)
deriving DecidableEq, Repr

/-- Result of `train_model`: the final model and optimizer states together
with the ordered trace of top-level actions. -/
structure TrainOut where
  model : PyModel
  opt : SGD
  events : List TrainerEv
deriving DecidableEq, Repr

/-- The `for epoch in range(1, n_epochs + 1)` loop of `train_model`, by the
number of remaining epochs.  Each epoch: `run_epoch(train_data, model.train(), optimizer)`
(`model.train()` sets the mode flag in place), then
`run_epoch(dev_data, model.eval(), optimizer)`, then
`torch.save(model, 'mnist_model_fully_connected.pt')`. -/
def train_epochs {α ℓ : Type} (T : Torch α ℓ) (train_data dev_data : List (Batch α)) :
    Nat → PyModel → SGD → TrainOut
  | 0, model, opt => ⟨model, opt, []⟩
  | n + 1, model, opt =>
    let r1 := run_epoch T train_data { model with training := true } opt
    let m1 : PyModel := ⟨r1.out.params, r1.out.flag⟩
    let r2 := run_epoch T dev_data { m1 with training := false } r1.out.opt
    let m2 : PyModel := ⟨r2.out.params, r2.out.flag⟩
    let rest := train_epochs T train_data dev_data n m2 r2.out.opt
    ⟨rest.model, rest.opt,
      TrainerEv.trainPass :: TrainerEv.evalPass ::
        TrainerEv.save "mnist_model_fully_connected.pt" m2 :: rest.events⟩

/-- `train_model` from `train_utils.py`: build
`torch.optim.SGD(model.parameters(), lr, momentum, nesterov)` (fresh momentum
buffer) and run `n_epochs` epochs. -/
def train_model {α ℓ : Type} (T : Torch α ℓ) (train_data dev_data : List (Batch α))
    (model : PyModel) (lr momentum : ℚ) (nesterov : Bool) (n_epochs : Nat) : TrainOut :=
  let optimizer : SGD := ⟨lr, momentum, nesterov, none⟩
  train_epochs T train_data dev_data n_epochs model optimizer

/-- How one trainer action updates the checkpoint file: `torch.save`
truncates and rewrites its destination, so each save fully overwrites the
prior content; other actions leave the file alone. -/
def save_fold (fs : Option PyModel) (ev : TrainerEv) : Option PyModel :=
  match ev with
  | TrainerEv.save _ c => some c
  | _ => fs

/-- The content of the checkpoint file after replaying a trace of trainer
actions; `none` models the file not existing. -/
def checkpoint_file (evs : List TrainerEv) : Option PyModel :=
  evs.foldl save_fold none

/-- Whether a trainer action writes the checkpoint file. -/
def TrainerEv.isSave : TrainerEv → Bool
  | TrainerEv.save _ _ => true
  | _ => false

/-- A `Torch` environment for concrete test runs: a model whose forward is
constant, predicts nothing and has zero loss and an empty gradient. -/
def unitTorch : Torch Int Unit where
  forward := fun _ f _ => (f, (), ())
  argmax := fun _ => []
  cross_entropy := fun _ _ => 0
  grad := fun _ _ _ => []

/-- A `Torch` environment whose joint-loss gradient is identically zero on a
one-parameter model (a model whose forward does not depend on its
parameter). -/
def zeroGradTorch : Torch Int Unit where
  forward := fun _ f _ => (f, (), ())
  argmax := fun _ => []
  cross_entropy := fun _ _ => 0
  grad := fun _ _ _ => [0]

/-- A `Torch` environment whose joint-loss gradient is constantly `[1]` on a
one-parameter model. -/
def oneGradTorch : Torch Int Unit where
  forward := fun _ f _ => (f, (), ())
  argmax := fun _ => []
  cross_entropy := fun _ _ => 0
  grad := fun _ _ _ => [1]

/-- A concrete one-sample batch for test runs. -/
def batch0 : Batch Int :=
  { x := [0]
    xDtype := DType.float32
    xDevice := "cpu"
    y := [[0], [0]]
    yDtype := DType.int64
    yDevice := "cpu" }

/-! ### Helper lemmas about the batcher -/

lemma pyRange_zero_mul (k b : Nat) (hb : 0 < b) :
    pyRange 0 ((k * b : Nat) : Int) ((b : Nat) : Int) =
      (List.range k).map (fun i => ((i * b : Nat) : Int)) := by
  have hbz : (0 : Int) < (b : Int) := by exact_mod_cast hb
  unfold pyRange
  rw [if_pos hbz]
  have hcount : ((((k * b : Nat) : Int) - 0).toNat + ((b : Nat) : Int).toNat - 1) /
      ((b : Nat) : Int).toNat = k := by
    rw [sub_zero, Int.toNat_natCast, Int.toNat_natCast]
    have h1 : k * b + b - 1 = b - 1 + k * b := by omega
    rw [h1, Nat.add_mul_div_right _ _ hb, Nat.div_eq_of_lt (by omega), Nat.zero_add]
  rw [hcount]
  refine List.map_congr_left (fun i _ => ?_)
  push_cast
  ring

lemma pySlice_natCast {α : Type} (l : List α) (i b : Nat) :
    pySlice l ((i : Nat) : Int) (((i : Nat) : Int) + ((b : Nat) : Int)) =
      (l.drop i).take b := by
  have h : ((i : Nat) : Int) + ((b : Nat) : Int) = ((i + b : Nat) : Int) := by push_cast; ring
  simp only [pySlice, h, Int.toNat_natCast]
  congr 1
  omega

lemma batch_data_pos {α : Type} (dev : String) (x_data : List α) (y0 y1 : List Int)
    (b : Nat) (hb : 0 < b) :
    batch_data dev x_data (y0, y1) (b : Int) =
      Except.ok ((List.range (x_data.length / b)).map (fun i =>
        { x := (x_data.drop (i * b)).take b
          xDtype := DType.float32
          xDevice := dev
          y := [(y0.drop (i * b)).take b, (y1.drop (i * b)).take b]
          yDtype := DType.int64
          yDevice := dev })) := by
  have hbz : ((b : Nat) : Int) ≠ 0 := by exact_mod_cast hb.ne.symm
  have htdiv : Int.tdiv ((x_data.length : Nat) : Int) ((b : Nat) : Int) =
      ((x_data.length / b : Nat) : Int) := by exact_mod_cast rfl
  simp only [batch_data, if_neg hbz, htdiv]
  have hN : ((x_data.length / b : Nat) : Int) * ((b : Nat) : Int) =
      ((x_data.length / b * b : Nat) : Int) := by push_cast; ring
  rw [hN, pyRange_zero_mul _ _ hb, List.map_map]
  congr 1
  refine List.map_congr_left (fun i _ => ?_)
  simp only [Function.comp_apply, pySlice_natCast]

lemma run_batches_eval {α ℓ : Type} (T : Torch α ℓ) :
    ∀ (data : List (Batch α)) (params : List ℚ) (flag : Bool) (opt : SGD),
      (run_batches T false data params flag opt).params = params ∧
      (run_batches T false data params flag opt).opt = opt ∧
      (run_batches T false data params flag opt).trace = [] := by
  intro data
  induction data with
  | nil => intro params flag opt; exact ⟨rfl, rfl, rfl⟩
  | cons batch rest ih =>
    intro params flag opt
    have h := ih params (T.forward params flag batch.x).1 opt
    simp only [run_batches, Bool.false_eq_true, if_false]
    exact h

lemma run_batches_lengths {α ℓ : Type} (T : Torch α ℓ) (is_training : Bool) :
    ∀ (data : List (Batch α)) (params : List ℚ) (flag : Bool) (opt : SGD),
      (run_batches T is_training data params flag opt).losses1.length = data.length ∧
      (run_batches T is_training data params flag opt).losses2.length = data.length ∧
      (run_batches T is_training data params flag opt).accs1.length = data.length ∧
      (run_batches T is_training data params flag opt).accs2.length = data.length := by
  intro data
  induction data with
  | nil => intro params flag opt; exact ⟨rfl, rfl, rfl, rfl⟩
  | cons batch rest ih =>
    intro params flag opt
    cases is_training with
    | false =>
      have h := ih params (T.forward params flag batch.x).1 opt
      simp only [run_batches, Bool.false_eq_true, if_false, List.length_cons]
      exact ⟨by rw [h.1], by rw [h.2.1], by rw [h.2.2.1], by rw [h.2.2.2]⟩
    | true =>
      have h := ih
        (SGD.step opt params (T.grad params flag batch)).1
        (T.forward params flag batch.x).1
        (SGD.step opt params (T.grad params flag batch)).2
      simp only [run_batches, if_true, List.length_cons]
      exact ⟨by rw [h.1], by rw [h.2.1], by rw [h.2.2.1], by rw [h.2.2.2]⟩

lemma run_batches_train_trace {α ℓ : Type} (T : Torch α ℓ) :
    ∀ (data : List (Batch α)) (params : List ℚ) (flag : Bool) (opt : SGD),
      (run_batches T true data params flag opt).trace =
        (((run_batches T true data params flag opt).losses1.zip
            (run_batches T true data params flag opt).losses2).map
          (fun p => [Event.zeroGrad, Event.backward ((1 / 2 : ℚ) * (p.1 + p.2)),
            Event.step])).flatten := by
  intro data
  induction data with
  | nil => intro params flag opt; rfl
  | cons batch rest ih =>
    intro params flag opt
    have h := ih
      (SGD.step opt params (T.grad params flag batch)).1
      (T.forward params flag batch.x).1
      (SGD.step opt params (T.grad params flag batch)).2
    simp only [run_batches, if_true, List.zip_cons_cons, List.map_cons, List.flatten_cons]
    rw [h]
    rfl

lemma flatten_chunks {α : Type} (b : Nat) :
    ∀ (k : Nat) (l : List α),
      ((List.range k).map (fun i => (l.drop (i * b)).take b)).flatten = l.take (k * b) := by
  intro k
  induction k with
  | zero => intro l; simp
  | succ k ih =>
    intro l
    rw [List.range_succ, List.map_append, List.flatten_append, ih]
    simp only [List.map_cons, List.map_nil, List.flatten_cons, List.flatten_nil,
      List.append_nil]
    rw [← List.take_add]
    congr 1
    ring

/-! ### Claim theorems: the batcher -/

/-- C1: for every input array of `N` samples, parallel label arrays of length
`N`, and positive `batch_size = b`, `batch_data` produces exactly `⌊N/b⌋`
batches, each containing exactly `b` samples, in original order with no
shuffling and no padding: concatenating the batch inputs in order reproduces
the first `⌊N/b⌋ * b` original samples unchanged, so the final `N mod b`
samples appear in no batch. -/
theorem batch_data_shape_and_content {α : Type} (dev : String) (x_data : List α)
    (y0 y1 : List Int) (b : Nat) (hb : 0 < b)
    (_hy0 : y0.length = x_data.length) (_hy1 : y1.length = x_data.length) :
    ∃ bs : List (Batch α),
      batch_data dev x_data (y0, y1) (b : Int) = Except.ok bs ∧
      bs.length = x_data.length / b ∧
      (∀ batch ∈ bs, batch.x.length = b) ∧
      (bs.map Batch.x).flatten = x_data.take (x_data.length / b * b) := by
  refine ⟨_, batch_data_pos dev x_data y0 y1 b hb, ?_, ?_, ?_⟩
  · rw [List.length_map, List.length_range]
  · intro batch hmem
    rw [List.mem_map] at hmem
    obtain ⟨i, hi, rfl⟩ := hmem
    rw [List.mem_range] at hi
    simp only [List.length_take, List.length_drop]
    have h1 : (i + 1) * b ≤ x_data.length / b * b := Nat.mul_le_mul_right _ hi
    have h2 : x_data.length / b * b ≤ x_data.length := Nat.div_mul_le_self _ _
    have h3 : i * b + b ≤ x_data.length := by
      calc i * b + b = (i + 1) * b := by ring
        _ ≤ x_data.length / b * b := h1
        _ ≤ x_data.length := h2
    omega
  · rw [List.map_map]
    exact flatten_chunks b (x_data.length / b) x_data

/-- Witness for C1 at a concrete input: 5 samples, parallel labels, batch
size 2 gives 2 batches of 2 whose concatenation is the first 4 samples. -/
theorem batch_data_shape_and_content_witness :
    ∃ bs : List (Batch Int),
      batch_data "cpu" [10, 20, 30, 40, 50] ([0, 1, 0, 1, 0], [1, 0, 1, 0, 1]) (2 : Int) =
        Except.ok bs ∧
      bs.length = 2 ∧
      (∀ batch ∈ bs, batch.x.length = 2) ∧
      (bs.map Batch.x).flatten = [10, 20, 30, 40] :=
  batch_data_shape_and_content "cpu" [10, 20, 30, 40, 50] [0, 1, 0, 1, 0] [1, 0, 1, 0, 1] 2
    (by decide) (by decide) (by decide)

/-- C10: every batch produced by `batch_data` has the invariant shape
`{x, y}` where `x` is a single float32 tensor holding that batch's input
samples and `y` is one int64 tensor stacking both label slices as the rows of
a `[2, batch_size]` tensor (head A's labels at row 0, head B's at row 1),
both placed on the module-level device. -/
theorem batch_data_batch_invariants {α : Type} (dev : String) (x_data : List α)
    (y0 y1 : List Int) (b : Nat) (hb : 0 < b)
    (hy0 : y0.length = x_data.length) (hy1 : y1.length = x_data.length) :
    ∃ bs : List (Batch α),
      batch_data dev x_data (y0, y1) (b : Int) = Except.ok bs ∧
      ∀ batch ∈ bs,
        batch.xDtype = DType.float32 ∧ batch.xDevice = dev ∧
        batch.yDtype = DType.int64 ∧ batch.yDevice = dev ∧
        batch.y.length = 2 ∧ (∀ row ∈ batch.y, row.length = b) ∧
        ∃ i : Nat, i < x_data.length / b ∧
          batch.x = (x_data.drop (i * b)).take b ∧
          batch.y = [(y0.drop (i * b)).take b, (y1.drop (i * b)).take b] := by
  refine ⟨_, batch_data_pos dev x_data y0 y1 b hb, ?_⟩
  intro batch hmem
  rw [List.mem_map] at hmem
  obtain ⟨i, hi, rfl⟩ := hmem
  rw [List.mem_range] at hi
  have h1 : (i + 1) * b ≤ x_data.length / b * b := Nat.mul_le_mul_right _ hi
  have h2 : x_data.length / b * b ≤ x_data.length := Nat.div_mul_le_self _ _
  have h3 : i * b + b ≤ x_data.length := by
    calc i * b + b = (i + 1) * b := by ring
      _ ≤ x_data.length / b * b := h1
      _ ≤ x_data.length := h2
  refine ⟨rfl, rfl, rfl, rfl, rfl, ?_, i, hi, rfl, rfl⟩
  intro row hrow
  simp only [List.mem_cons, List.mem_singleton] at hrow
  rcases hrow with h | h | h
  · subst h; simp only [List.length_take, List.length_drop]; omega
  · subst h; simp only [List.length_take, List.length_drop]; omega
  · cases h

/-- Witness for C10 at a concrete input. -/
theorem batch_data_batch_invariants_witness :
    ∃ bs : List (Batch Int),
      batch_data "cpu" [10, 20, 30, 40, 50] ([0, 1, 0, 1, 0], [1, 0, 1, 0, 1]) (2 : Int) =
        Except.ok bs ∧
      ∀ batch ∈ bs,
        batch.xDtype = DType.float32 ∧ batch.xDevice = "cpu" ∧
        batch.yDtype = DType.int64 ∧ batch.yDevice = "cpu" ∧
        batch.y.length = 2 ∧ (∀ row ∈ batch.y, row.length = 2) ∧
        ∃ i : Nat, i < 2 ∧
          batch.x = (([10, 20, 30, 40, 50] : List Int).drop (i * 2)).take 2 ∧
          batch.y = [(([0, 1, 0, 1, 0] : List Int).drop (i * 2)).take 2,
            (([1, 0, 1, 0, 1] : List Int).drop (i * 2)).take 2] :=
  batch_data_batch_invariants "cpu" [10, 20, 30, 40, 50] [0, 1, 0, 1, 0] [1, 0, 1, 0, 1] 2
    (by decide) (by decide) (by decide)

/-- C7 counterexample: at `batch_size = 0`, `batch_data` does not produce
zero batches — it raises `ZeroDivisionError` at the host-language division
`int(len(x_data) / batch_size)`, before any tensor is built. -/
theorem batch_data_zero_batch_size_raises :
    batch_data "cpu" ([0] : List Int) ([0], [0]) 0 = Except.error "ZeroDivisionError" ∧
    batch_data "cpu" ([0] : List Int) ([0], [0]) 0 ≠ Except.ok [] := by
  refine ⟨rfl, fun h => ?_⟩
  rw [show batch_data "cpu" ([0] : List Int) ([0], [0]) 0 =
    Except.error "ZeroDivisionError" from rfl] at h
  exact Except.noConfusion h

/-- C7 (amended): for every input data and `batch_size ≤ 0`, `batch_data`
performs no validation; a strictly negative `batch_size` produces zero
batches, while `batch_size = 0` raises a `ZeroDivisionError` from the host
language at the division computing `N` (not from the tensor library). -/
theorem batch_data_nonpositive_batch_size {α : Type} (dev : String) (x_data : List α)
    (y_data : List Int × List Int) (batch_size : Int) (hb : batch_size ≤ 0) :
    batch_data dev x_data y_data batch_size =
      if batch_size = 0 then Except.error "ZeroDivisionError" else Except.ok [] := by
  by_cases h0 : batch_size = 0
  · rw [if_pos h0]
    simp [batch_data, h0]
  · rw [if_neg h0]
    have hneg : batch_size < 0 := lt_of_le_of_ne hb h0
    simp only [batch_data, if_neg h0]
    have hN : 0 ≤ Int.tdiv (x_data.length : Int) batch_size * batch_size := by
      have hq : Int.tdiv (x_data.length : Int) batch_size ≤ 0 := by
        have h1 : Int.tdiv (x_data.length : Int) (-(-batch_size)) =
            -(Int.tdiv (x_data.length : Int) (-batch_size)) := Int.tdiv_neg ..
        rw [neg_neg] at h1
        rw [h1]
        have h2 : 0 ≤ Int.tdiv (x_data.length : Int) (-batch_size) :=
          Int.tdiv_nonneg (by positivity) (by omega)
        omega
      have := mul_nonneg (neg_nonneg.mpr hq) (neg_nonneg.mpr hneg.le)
      nlinarith
    have hrange : pyRange 0 (Int.tdiv (x_data.length : Int) batch_size * batch_size)
        batch_size = [] := by
      unfold pyRange
      rw [if_neg (by omega), if_pos hneg]
      have hz : (0 - Int.tdiv (x_data.length : Int) batch_size * batch_size).toNat = 0 :=
        Int.toNat_of_nonpos (by omega)
      rw [hz]
      have hstep : 0 < (-batch_size).toNat := by omega
      rw [Nat.zero_add, Nat.div_eq_of_lt (by omega), List.range_zero, List.map_nil]
    rw [hrange, List.map_nil]

/-- Witness for the amended C7 at a concrete negative batch size. -/
theorem batch_data_nonpositive_batch_size_witness :
    batch_data "cpu" ([7] : List Int) ([1], [2]) (-2) =
      if (-2 : Int) = 0 then Except.error "ZeroDivisionError" else Except.ok [] :=
  batch_data_nonpositive_batch_size "cpu" [7] ([1], [2]) (-2) (by decide)

/-! ### Claim theorems: the accuracy meter -/

lemma indicator_sum_eq_countP :
    ∀ (p y : List Int),
      (List.zipWith (fun a b => if a = b then (1 : ℚ) else 0) p y).sum =
        (((p.zip y).countP (fun q => q.1 == q.2) : Nat) : ℚ) := by
  intro p
  induction p with
  | nil => intro y; simp
  | cons a p ih =>
    intro y
    cases y with
    | nil => simp
    | cons b y =>
      simp only [List.zipWith_cons_cons, List.sum_cons, List.zip_cons_cons,
        List.countP_cons, ih y]
      by_cases h : a = b
      · simp [h]
        ring
      · simp [h]

lemma countP_zip_same_eq_length (v : List Int) :
    (v.zip v).countP (fun q => q.1 == q.2) = v.length := by
  induction v with
  | nil => rfl
  | cons a v ih => simp [List.countP_cons, ih]

/-- C4: for every pair of predicted-label and gold-label vectors of equal
(positive) length, `compute_accuracy` returns the fraction of positions at
which the two vectors are exactly equal; in particular it returns 1.0 when
the vectors are identical, 0.0 when they differ at every position, and 0.5
when exactly half the positions match. -/
theorem compute_accuracy_fraction :
    (∀ p y : List Int, p.length = y.length → p ≠ [] →
        compute_accuracy p y =
          some ((((p.zip y).countP (fun q => q.1 == q.2) : Nat) : ℚ) / (p.length : ℚ))) ∧
    (∀ v : List Int, v ≠ [] → compute_accuracy v v = some 1) ∧
    (∀ p y : List Int, p.length = y.length → p ≠ [] →
        (∀ q ∈ p.zip y, q.1 ≠ q.2) → compute_accuracy p y = some 0) ∧
    (∀ p y : List Int, p.length = y.length → p ≠ [] →
        2 * (p.zip y).countP (fun q => q.1 == q.2) = p.length →
        compute_accuracy p y = some (1 / 2)) := by
  have hmain : ∀ p y : List Int, p.length = y.length → p ≠ [] →
      compute_accuracy p y =
        some ((((p.zip y).countP (fun q => q.1 == q.2) : Nat) : ℚ) / (p.length : ℚ)) := by
    intro p y hlen hne
    have hzlen : (List.zipWith (fun a b => if a = b then (1 : ℚ) else 0) p y).length =
        p.length := by
      rw [List.length_zipWith, hlen, Nat.min_self]
    have hpos : p.length ≠ 0 := fun h => hne (List.length_eq_zero.mp h)
    rw [compute_accuracy, np_mean, if_neg (by rw [hzlen]; exact hpos), hzlen,
      indicator_sum_eq_countP]
  refine ⟨hmain, ?_, ?_, ?_⟩
  · intro v hne
    have hpos : (v.length : ℚ) ≠ 0 := by
      have : v.length ≠ 0 := fun h => hne (List.length_eq_zero.mp h)
      exact_mod_cast this
    rw [hmain v v rfl hne, countP_zip_same_eq_length, div_self hpos]
  · intro p y hlen hne hdiff
    have hzero : (p.zip y).countP (fun q => q.1 == q.2) = 0 := by
      rw [List.countP_eq_zero]
      intro q hq
      simpa using hdiff q hq
    rw [hmain p y hlen hne, hzero]
    norm_num
  · intro p y hlen hne hhalf
    have hpos : (p.length : ℚ) ≠ 0 := by
      have : p.length ≠ 0 := fun h => hne (List.length_eq_zero.mp h)
      exact_mod_cast this
    rw [hmain p y hlen hne]
    have hcast : (p.length : ℚ) = 2 * (((p.zip y).countP (fun q => q.1 == q.2) : Nat) : ℚ) := by
      exact_mod_cast hhalf.symm
    have hcne : (((p.zip y).countP (fun q => q.1 == q.2) : Nat) : ℚ) ≠ 0 := by
      intro h0
      rw [h0, mul_zero] at hcast
      exact hpos hcast
    rw [hcast]
    congr 1
    rw [div_mul_eq_div_div_swap, div_self hcne]

/-- Witness for C4 at concrete inputs: a half-matching pair, an identical
pair, an everywhere-different pair, and another half-matching pair. -/
theorem compute_accuracy_fraction_witness :
    compute_accuracy [1, 2] [1, 3] =
      some (((([1, 2].zip [1, 3]).countP (fun q : Int × Int => q.1 == q.2) : Nat) : ℚ) / 2) ∧
    compute_accuracy [5] [5] = some 1 ∧
    compute_accuracy [0, 1] [1, 0] = some 0 ∧
    compute_accuracy [0, 1] [0, 2] = some (1 / 2) :=
  ⟨compute_accuracy_fraction.1 [1, 2] [1, 3] (by decide) (by decide),
   compute_accuracy_fraction.2.1 [5] (by decide),
   compute_accuracy_fraction.2.2.1 [0, 1] [1, 0] (by decide) (by decide) (by decide),
   compute_accuracy_fraction.2.2.2 [0, 1] [0, 2] (by decide) (by decide) (by decide)⟩

/-! ### Claim theorems: the epoch runner -/

/-- C2: for every split, running `run_epoch` with the model in EVAL mode
(`model.training` false) leaves every model parameter value unchanged, and no
optimizer step or gradient update occurs (the optimizer state is untouched
and the autograd/optimizer effect trace is empty). -/
theorem run_epoch_eval_frame {α ℓ : Type} (T : Torch α ℓ) (data : List (Batch α))
    (model : PyModel) (opt : SGD) (h : model.training = false) :
    (run_epoch T data model opt).out.params = model.params ∧
    (run_epoch T data model opt).out.opt = opt ∧
    (run_epoch T data model opt).out.trace = [] := by
  simp only [run_epoch, h]
  exact run_batches_eval T data model.params false opt

/-- Witness for C2 at a concrete split and model. -/
theorem run_epoch_eval_frame_witness :
    (PyModel.mk [1, 2] false).training = false ∧
    (run_epoch unitTorch [batch0] (PyModel.mk [1, 2] false)
      (SGD.mk 1 (9 / 10) false none)).out.params = [1, 2] ∧
    (run_epoch unitTorch [batch0] (PyModel.mk [1, 2] false)
      (SGD.mk 1 (9 / 10) false none)).out.opt = SGD.mk 1 (9 / 10) false none ∧
    (run_epoch unitTorch [batch0] (PyModel.mk [1, 2] false)
      (SGD.mk 1 (9 / 10) false none)).out.trace = [] :=
  ⟨rfl,
   (run_epoch_eval_frame unitTorch [batch0] (PyModel.mk [1, 2] false)
     (SGD.mk 1 (9 / 10) false none) rfl).1,
   (run_epoch_eval_frame unitTorch [batch0] (PyModel.mk [1, 2] false)
     (SGD.mk 1 (9 / 10) false none) rfl).2.1,
   (run_epoch_eval_frame unitTorch [batch0] (PyModel.mk [1, 2] false)
     (SGD.mk 1 (9 / 10) false none) rfl).2.2⟩

/-- C3: in TRAIN mode the effect trace of `run_epoch` consists, per batch and
in batch order, of exactly: clear accumulated gradients, backpropagate the
joint objective — which equals exactly `0.5 * (loss_a + loss_b)` for the
per-head cross-entropy losses recorded for that batch — then exactly one
optimizer step. -/
theorem run_epoch_train_joint_loss {α ℓ : Type} (T : Torch α ℓ) (data : List (Batch α))
    (model : PyModel) (opt : SGD) (h : model.training = true) :
    (run_epoch T data model opt).out.losses1.length = data.length ∧
    (run_epoch T data model opt).out.losses2.length = data.length ∧
    (run_epoch T data model opt).out.trace =
      (((run_epoch T data model opt).out.losses1.zip
          (run_epoch T data model opt).out.losses2).map
        (fun p => [Event.zeroGrad, Event.backward ((1 / 2 : ℚ) * (p.1 + p.2)),
          Event.step])).flatten := by
  simp only [run_epoch, h]
  exact ⟨(run_batches_lengths T true data model.params true opt).1,
    (run_batches_lengths T true data model.params true opt).2.1,
    run_batches_train_trace T data model.params true opt⟩

/-- Witness for C3 at a concrete training run over one batch. -/
theorem run_epoch_train_joint_loss_witness :
    (run_epoch unitTorch [batch0] (PyModel.mk [] true)
      (SGD.mk 1 (9 / 10) false none)).out.losses1.length = 1 ∧
    (run_epoch unitTorch [batch0] (PyModel.mk [] true)
      (SGD.mk 1 (9 / 10) false none)).out.losses2.length = 1 ∧
    (run_epoch unitTorch [batch0] (PyModel.mk [] true)
      (SGD.mk 1 (9 / 10) false none)).out.trace =
      ((((run_epoch unitTorch [batch0] (PyModel.mk [] true)
            (SGD.mk 1 (9 / 10) false none)).out.losses1.zip
          (run_epoch unitTorch [batch0] (PyModel.mk [] true)
            (SGD.mk 1 (9 / 10) false none)).out.losses2).map
        (fun p => [Event.zeroGrad, Event.backward ((1 / 2 : ℚ) * (p.1 + p.2)),
          Event.step])).flatten) :=
  run_epoch_train_joint_loss unitTorch [batch0] (PyModel.mk [] true)
    (SGD.mk 1 (9 / 10) false none) rfl

/-- C6: `run_epoch` returns the `np.mean` across batches of each per-head
loss list and each per-head accuracy list (one entry per batch), as two
pairs; on an empty batch sequence it does not raise, and all four returned
means are `nan`. -/
theorem run_epoch_epoch_means {α ℓ : Type} (T : Torch α ℓ) (data : List (Batch α))
    (model : PyModel) (opt : SGD) :
    (run_epoch T data model opt).out.losses1.length = data.length ∧
    (run_epoch T data model opt).out.losses2.length = data.length ∧
    (run_epoch T data model opt).out.accs1.length = data.length ∧
    (run_epoch T data model opt).out.accs2.length = data.length ∧
    (run_epoch T data model opt).avg_loss =
      (np_mean (run_epoch T data model opt).out.losses1,
       np_mean (run_epoch T data model opt).out.losses2) ∧
    (run_epoch T data model opt).avg_accuracy =
      (np_mean_npf (run_epoch T data model opt).out.accs1,
       np_mean_npf (run_epoch T data model opt).out.accs2) ∧
    (run_epoch T ([] : List (Batch α)) model opt).avg_loss = (none, none) ∧
    (run_epoch T ([] : List (Batch α)) model opt).avg_accuracy = (none, none) := by
  have h := run_batches_lengths T model.training data model.params model.training opt
  exact ⟨h.1, h.2.1, h.2.2.1, h.2.2.2, rfl, rfl, rfl, rfl⟩

lemma map_const_replicate {β γ : Type} (c : γ) :
    ∀ L : List β, L.map (fun _ => c) = List.replicate L.length c := by
  intro L
  induction L with
  | nil => rfl
  | cons a L ih => simp only [List.map_cons, ih, List.length_cons, List.replicate_succ]

/-- C9: the update decision of `run_epoch` is latched from `model.training`
once, before any batch is iterated: regardless of how the model's mode flag
evolves during the epoch (the forward computation may change it), every batch
of a call that started in TRAIN mode performs exactly the update effects
zero_grad/backward/step, and every batch of a call that started in EVAL mode
performs none. -/
theorem run_epoch_latched_training_flag {α ℓ : Type} (T : Torch α ℓ)
    (data : List (Batch α)) (model : PyModel) (opt : SGD) :
    (run_epoch T data model opt).out.trace.map Event.kind =
      if model.training then
        (List.replicate data.length
          [EventKind.zeroGrad, EventKind.backward, EventKind.step]).flatten
      else [] := by
  by_cases htr : model.training
  · rw [if_pos htr]
    simp only [run_epoch]
    rw [htr, run_batches_train_trace T data model.params true opt,
      List.map_flatten, List.map_map]
    have hfun : (List.map Event.kind ∘
        (fun p : ℚ × ℚ => [Event.zeroGrad, Event.backward ((1 / 2 : ℚ) * (p.1 + p.2)),
          Event.step])) =
        fun _ : ℚ × ℚ => [EventKind.zeroGrad, EventKind.backward, EventKind.step] := rfl
    rw [hfun, map_const_replicate]
    congr 1
    rw [List.length_zip, (run_batches_lengths T true data model.params true opt).1,
      (run_batches_lengths T true data model.params true opt).2.1, Nat.min_self]
  · have hf : model.training = false := by
      revert htr; cases model.training <;> simp
    rw [if_neg htr]
    simp only [run_epoch]
    rw [hf, (run_batches_eval T data model.params false opt).2.2]
    rfl

/-! ### Claim theorems: TRAIN mode parameter change (C8) -/

lemma SGD.step_fst_getD (o : SGD) (p g : List ℚ) (i : Nat) (hbuf : o.buf = none)
    (hip : i < p.length) (hig : i < g.length) :
    ((o.step p g).1).getD i 0 =
      p.getD i 0 - o.lr *
        (if o.nesterov then g.getD i 0 + o.momentum * g.getD i 0 else g.getD i 0) := by
  simp only [SGD.step, hbuf]
  by_cases hn : o.nesterov
  · rw [if_pos hn, if_pos hn]
    have hz2 : i < (List.zipWith (fun gi bi => gi + o.momentum * bi) g g).length := by
      rw [List.length_zipWith]; omega
    have hz : i < (List.zipWith (fun pi di => pi - o.lr * di) p
        (List.zipWith (fun gi bi => gi + o.momentum * bi) g g)).length := by
      rw [List.length_zipWith, List.length_zipWith]; omega
    rw [List.getD_eq_getElem _ _ hz, List.getElem_zipWith,
      List.getD_eq_getElem _ _ hip, List.getD_eq_getElem _ _ hig, List.getElem_zipWith]
  · rw [if_neg hn, if_neg hn]
    have hz : i < (List.zipWith (fun pi di => pi - o.lr * di) p g).length := by
      rw [List.length_zipWith]; omega
    rw [List.getD_eq_getElem _ _ hz, List.getElem_zipWith,
      List.getD_eq_getElem _ _ hip, List.getD_eq_getElem _ _ hig]

/-- C8 counterexample: a TRAIN-mode `run_epoch` call over a non-empty split
with nonzero learning rate that changes no parameter at all — the model's
forward ignores its parameter, so the joint-loss gradient is identically zero
and the SGD step moves nothing. -/
theorem run_epoch_train_zero_grad_no_change :
    (PyModel.mk [1] true).training = true ∧
    ([batch0] : List (Batch Int)) ≠ [] ∧
    (SGD.mk 1 (9 / 10) false none).lr ≠ 0 ∧
    (run_epoch zeroGradTorch [batch0] (PyModel.mk [1] true)
      (SGD.mk 1 (9 / 10) false none)).out.params = (PyModel.mk [1] true).params := by
  refine ⟨rfl, by simp, by norm_num, ?_⟩
  show [(1 : ℚ) - 1 * 0] = [1]
  norm_num

/-- C8 (amended): a TRAIN-mode `run_epoch` call strictly changes at least one
parameter provided the first optimizer update is nonzero — in particular, for
a single-batch split with a fresh optimizer (no momentum buffer yet) and
nonzero learning rate, whenever the joint-objective gradient at the initial
parameters is nonzero in some coordinate (and momentum is positive if
Nesterov momentum is enabled, as the optimizer requires). -/
theorem run_epoch_train_first_step_changes_params {α ℓ : Type} (T : Torch α ℓ)
    (batch : Batch α) (model : PyModel) (opt : SGD) (i : Nat)
    (ht : model.training = true) (hbuf : opt.buf = none) (hlr : opt.lr ≠ 0)
    (hi : i < model.params.length)
    (hig : i < (T.grad model.params true batch).length)
    (hgi : (T.grad model.params true batch).getD i 0 ≠ 0)
    (hnes : opt.nesterov = false ∨ 0 < opt.momentum) :
    (run_epoch T [batch] model opt).out.params ≠ model.params := by
  obtain ⟨mp, mt⟩ := model
  have hmt : mt = true := ht
  subst hmt
  intro heq
  have hstep := SGD.step_fst_getD opt mp (T.grad mp true batch) i hbuf hi hig
  have hrun : (run_epoch T [batch] (PyModel.mk mp true) opt).out.params =
      (opt.step mp (T.grad mp true batch)).1 := rfl
  rw [hrun] at heq
  have hEq : (opt.step mp (T.grad mp true batch)).1.getD i 0 = mp.getD i 0 := by rw [heq]
  rw [hstep] at hEq
  have hzero : opt.lr *
      (if opt.nesterov then
        (T.grad mp true batch).getD i 0 + opt.momentum * (T.grad mp true batch).getD i 0
      else (T.grad mp true batch).getD i 0) = 0 := by
    have := sub_eq_self.mp hEq
    exact this
  rcases mul_eq_zero.mp hzero with h | h
  · exact hlr h
  · by_cases hn : opt.nesterov
    · rw [if_pos hn] at h
      rcases hnes with hno | hm
      · rw [hno] at hn; exact Bool.noConfusion hn
      · have h19 : (1 + opt.momentum) ≠ 0 := by positivity
        have hfac : (1 + opt.momentum) * (T.grad mp true batch).getD i 0 = 0 := by
          linear_combination h
        rcases mul_eq_zero.mp hfac with h0 | h0
        · exact h19 h0
        · exact hgi h0
    · rw [if_neg hn] at h
      exact hgi h

/-- Witness for the amended C8: a concrete one-parameter model with constant
gradient `[1]` and learning rate 1 whose parameter moves. -/
theorem run_epoch_train_first_step_changes_params_witness :
    (run_epoch oneGradTorch [batch0] (PyModel.mk [0] true)
      (SGD.mk 1 (9 / 10) false none)).out.params ≠ [0] :=
  run_epoch_train_first_step_changes_params oneGradTorch batch0 (PyModel.mk [0] true)
    (SGD.mk 1 (9 / 10) false none) 0 rfl rfl (by norm_num) (by decide) (by decide)
    (by decide) (Or.inl rfl)

/-! ### Claim theorems: the trainer -/

lemma countP_save_chunks :
    ∀ contents : List PyModel,
      ((contents.map (fun c =>
        [TrainerEv.trainPass, TrainerEv.evalPass,
          TrainerEv.save "mnist_model_fully_connected.pt" c])).flatten).countP
        TrainerEv.isSave = contents.length := by
  intro contents
  induction contents with
  | nil => rfl
  | cons c cs ih =>
    simp only [List.map_cons, List.flatten_cons, List.countP_append, ih, List.length_cons]
    have hc : List.countP TrainerEv.isSave
        [TrainerEv.trainPass, TrainerEv.evalPass,
          TrainerEv.save "mnist_model_fully_connected.pt" c] = 1 := rfl
    omega

lemma train_epochs_events {α ℓ : Type} (T : Torch α ℓ)
    (train_data dev_data : List (Batch α)) :
    ∀ (n : Nat) (model : PyModel) (opt : SGD),
      ∃ contents : List PyModel,
        contents.length = n ∧
        (train_epochs T train_data dev_data n model opt).events =
          (contents.map (fun c =>
            [TrainerEv.trainPass, TrainerEv.evalPass,
              TrainerEv.save "mnist_model_fully_connected.pt" c])).flatten ∧
        (∀ init : Option PyModel,
          (train_epochs T train_data dev_data n model opt).events.foldl save_fold init =
            if n = 0 then init else contents.getLast?) ∧
        contents.getLast? =
          (if n = 0 then none
           else some (train_epochs T train_data dev_data n model opt).model) := by
  intro n
  induction n with
  | zero =>
    intro model opt
    exact ⟨[], rfl, rfl, fun init => rfl, rfl⟩
  | succ n ih =>
    intro model opt
    set r1 := run_epoch T train_data (PyModel.mk model.params true) opt with hr1def
    set r2 := run_epoch T dev_data (PyModel.mk r1.out.params false) r1.out.opt with hr2def
    set m2 : PyModel := PyModel.mk r2.out.params r2.out.flag with hm2def
    obtain ⟨contents, hlen, hev, hfold, hlast⟩ := ih m2 r2.out.opt
    have hstep : train_epochs T train_data dev_data (n + 1) model opt =
        ⟨(train_epochs T train_data dev_data n m2 r2.out.opt).model,
         (train_epochs T train_data dev_data n m2 r2.out.opt).opt,
         TrainerEv.trainPass :: TrainerEv.evalPass ::
           TrainerEv.save "mnist_model_fully_connected.pt" m2 ::
           (train_epochs T train_data dev_data n m2 r2.out.opt).events⟩ := rfl
    refine ⟨m2 :: contents, by rw [List.length_cons, hlen], ?_, ?_, ?_⟩
    · rw [hstep, List.map_cons, List.flatten_cons, hev]
      rfl
    · intro init
      rw [hstep]
      show (train_epochs T train_data dev_data n m2 r2.out.opt).events.foldl save_fold
        (some m2) = _
      rw [hfold (some m2)]
      cases contents with
      | nil =>
        have hn0 : n = 0 := by rw [← hlen]; rfl
        subst hn0
        rfl
      | cons c cs =>
        have hn0 : n ≠ 0 := by rw [← hlen]; exact (Nat.succ_ne_zero _)
        rw [if_neg hn0, if_neg (Nat.succ_ne_zero n), List.getLast?_cons_cons]
    · rw [hstep, if_neg (Nat.succ_ne_zero n)]
      cases contents with
      | nil =>
        have hn0 : n = 0 := by rw [← hlen]; rfl
        subst hn0
        rfl
      | cons c cs =>
        have hn0 : n ≠ 0 := by rw [← hlen]; exact (Nat.succ_ne_zero _)
        rw [List.getLast?_cons_cons]
        rw [if_neg hn0] at hlast
        exact hlast

/-- C5: for every epoch count `n > 0`, `train_model` writes the model
checkpoint exactly `n` times, once at the end of each epoch after that
epoch's training pass and evaluation pass, always to the same fixed
hard-coded path `mnist_model_fully_connected.pt`; each write fully overwrites
the prior content, so after `n` epochs the file holds exactly the `n`-th
epoch's model state and no earlier epoch is retained. -/
theorem train_model_checkpoints {α ℓ : Type} (T : Torch α ℓ)
    (train_data dev_data : List (Batch α)) (model : PyModel) (lr momentum : ℚ)
    (nesterov : Bool) (n_epochs : Nat) (hn : 0 < n_epochs) :
    ∃ contents : List PyModel,
      contents.length = n_epochs ∧
      (train_model T train_data dev_data model lr momentum nesterov n_epochs).events =
        (contents.map (fun c =>
          [TrainerEv.trainPass, TrainerEv.evalPass,
            TrainerEv.save "mnist_model_fully_connected.pt" c])).flatten ∧
      (train_model T train_data dev_data model lr momentum nesterov n_epochs).events.countP
        TrainerEv.isSave = n_epochs ∧
      checkpoint_file
        (train_model T train_data dev_data model lr momentum nesterov n_epochs).events =
        contents.getLast? ∧
      contents.getLast? =
        some (train_model T train_data dev_data model lr momentum nesterov n_epochs).model := by
  obtain ⟨contents, hlen, hev, hfold, hlast⟩ :=
    train_epochs_events T train_data dev_data n_epochs model
      (SGD.mk lr momentum nesterov none)
  have htm : train_model T train_data dev_data model lr momentum nesterov n_epochs =
      train_epochs T train_data dev_data n_epochs model
        (SGD.mk lr momentum nesterov none) := rfl
  refine ⟨contents, hlen, ?_, ?_, ?_, ?_⟩
  · rw [htm]; exact hev
  · rw [htm, hev, countP_save_chunks, hlen]
  · rw [htm]
    exact (hfold none).trans (if_neg (Nat.pos_iff_ne_zero.mp hn))
  · rw [htm, hlast, if_neg (Nat.pos_iff_ne_zero.mp hn)]

/-- Witness for C5: one epoch over empty splits with a concrete model. -/
theorem train_model_checkpoints_witness :
    ∃ contents : List PyModel,
      contents.length = 1 ∧
      (train_model unitTorch [] [] (PyModel.mk [] false) 0 0 false 1).events =
        (contents.map (fun c =>
          [TrainerEv.trainPass, TrainerEv.evalPass,
            TrainerEv.save "mnist_model_fully_connected.pt" c])).flatten ∧
      (train_model unitTorch [] [] (PyModel.mk [] false) 0 0 false 1).events.countP
        TrainerEv.isSave = 1 ∧
      checkpoint_file (train_model unitTorch [] [] (PyModel.mk [] false) 0 0 false 1).events =
        contents.getLast? ∧
      contents.getLast? =
        some (train_model unitTorch [] [] (PyModel.mk [] false) 0 0 false 1).model :=
  train_model_checkpoints unitTorch [] [] (PyModel.mk [] false) 0 0 false 1 (by decide)
